import Mathlib

/-!
Verification of the chip-tiling and bin-assignment engine of the
buffelgrass-annotator repository.

The definitions below are shallow embeddings of the Python functions in
`scripts/generate_chip_manifest.py`, `scripts/merge_chip_manifest.py` and
`scripts/chip_extractor.py`.  Machine integers are modelled as `Nat`
(all quantities involved — pixel coordinates, sizes, margins — are
non-negative in every reachable branch of the source, and each truncated
`Nat` subtraction below is justified at its use site); 32-bit arithmetic
in the hash is written with an explicit `% 2^32`.
-/

/-- Spacing between adjacent chips along one axis, from
`compute_chip_grid` in `generate_chip_manifest.py`:
`(usable - count*size) // (count - 1) if count > 1 else 0`. -/
def gridSpacing (usable count size : Nat) : Nat :=
  if 1 < count then (usable - count * size) / (count - 1) else 0

/-- Shallow embedding of `compute_chip_grid` from
`generate_chip_manifest.py` (lines 52-95): required-size check, per-axis
spacing, row-major generation of upper-left corners, and the defensive
in-bounds re-check that silently drops out-of-bounds chips. -/
def compute_chip_grid (width height chip_size grid_x grid_y margin : Nat) :
    List (Nat × Nat) :=
  if width < grid_x * chip_size + 2 * margin ∨
      height < grid_y * chip_size + 2 * margin then
    []
  else
    ((List.range grid_y).map (fun row =>
      ((List.range grid_x).map (fun col =>
        (margin + col * (chip_size + gridSpacing (width - 2 * margin) grid_x chip_size),
         margin + row * (chip_size + gridSpacing (height - 2 * margin) grid_y chip_size)))).filter
        (fun p => decide (p.1 + chip_size ≤ width - margin) &&
                  decide (p.2 + chip_size ≤ height - margin)))).flatten

/-- Structure of any member of the grid: it comes from a row/column pair
and passes the in-bounds re-check. -/
theorem compute_chip_grid_mem_struct {w h s gx gy m : Nat} {p : Nat × Nat}
    (hp : p ∈ compute_chip_grid w h s gx gy m) :
    ∃ row col, row < gy ∧ col < gx ∧
      p = (m + col * (s + gridSpacing (w - 2 * m) gx s),
           m + row * (s + gridSpacing (h - 2 * m) gy s)) ∧
      p.1 + s ≤ w - m ∧ p.2 + s ≤ h - m := by
  unfold compute_chip_grid at hp
  split at hp
  · simp at hp
  · rw [List.mem_flatten] at hp
    obtain ⟨l, hl, hpl⟩ := hp
    rw [List.mem_map] at hl
    obtain ⟨row, hrow, rfl⟩ := hl
    rw [List.mem_range] at hrow
    rw [List.mem_filter] at hpl
    obtain ⟨hmap, hbound⟩ := hpl
    rw [List.mem_map] at hmap
    obtain ⟨col, hcol, hpe⟩ := hmap
    rw [List.mem_range] at hcol
    simp only [Bool.and_eq_true, decide_eq_true_eq] at hbound
    exact ⟨row, col, hrow, hcol, hpe.symm, hbound.1, hbound.2⟩

/-- When the grid fits, every generated corner passes the in-bounds
re-check. -/
theorem gridSpacing_corner_bound (u n s c : Nat)
    (h : n * s ≤ u) (hc : c < n) :
    c * (s + gridSpacing u n s) + s ≤ u := by
  unfold gridSpacing
  split
  · rename_i hgt
    set q := (u - n * s) / (n - 1) with hq
    have hql : q * (n - 1) ≤ u - n * s := Nat.div_mul_le_self _ _
    have h1 : c * (s + q) ≤ (n - 1) * (s + q) :=
      Nat.mul_le_mul_right _ (by omega)
    have h2 : (n - 1) * (s + q) = (n - 1) * s + (n - 1) * q := by
      ring
    have h3 : (n - 1) * s + s = n * s := by
      have hn : n - 1 + 1 = n := by omega
      calc (n - 1) * s + s = (n - 1 + 1) * s := by ring
        _ = n * s := by rw [hn]
    have h4 : (n - 1) * q ≤ u - n * s := by
      rw [Nat.mul_comm]; exact hql
    omega
  · rename_i hle
    have hn1 : n = 1 := by omega
    subst hn1
    have hc0 : c = 0 := by omega
    subst hc0
    simpa using h

/-- When the image is large enough, the in-bounds filter keeps every
generated corner, so the grid is the full row-major rectangle of
corners. -/
theorem compute_chip_grid_of_fits {w h s gx gy m : Nat}
    (hw : gx * s + 2 * m ≤ w) (hh : gy * s + 2 * m ≤ h) :
    compute_chip_grid w h s gx gy m =
      ((List.range gy).map (fun row =>
        (List.range gx).map (fun col =>
          (m + col * (s + gridSpacing (w - 2 * m) gx s),
           m + row * (s + gridSpacing (h - 2 * m) gy s))))).flatten := by
  unfold compute_chip_grid
  rw [if_neg (by omega)]
  congr 1
  apply List.map_congr_left
  intro row hrow
  simp only [List.mem_range] at hrow
  rw [List.filter_eq_self]
  intro p hp
  simp only [List.mem_map, List.mem_range] at hp
  obtain ⟨col, hcol, rfl⟩ := hp
  simp only [Bool.and_eq_true, decide_eq_true_eq]
  constructor
  · have := gridSpacing_corner_bound (w - 2 * m) gx s col (by omega) hcol
    omega
  · have := gridSpacing_corner_bound (h - 2 * m) gy s row (by omega) hrow
    omega

/-- Length of the grid when the image is large enough: the full
`grid_x * grid_y` chips are produced. -/
theorem compute_chip_grid_length {w h s gx gy m : Nat}
    (hw : gx * s + 2 * m ≤ w) (hh : gy * s + 2 * m ≤ h) :
    (compute_chip_grid w h s gx gy m).length = gx * gy := by
  rw [compute_chip_grid_of_fits hw hh, List.length_flatten, List.map_map]
  trans (List.map (fun _ : Nat => gx) (List.range gy)).sum
  · apply congrArg List.sum
    apply List.map_congr_left
    intro a _
    simp
  · simp [List.map_const', List.sum_replicate, smul_eq_mul, Nat.mul_comm]

/-- C2: with `tile_size=1024, grid_x=6, grid_y=5, margin=10`,
`compute_chip_grid` returns exactly 30 tiles whenever
`width ≥ 6*1024+20` and `height ≥ 5*1024+20`, and returns the empty
list whenever either dimension is below its threshold. -/
theorem plan_grid_feasibility_boundary (w h : Nat) :
    (6 * 1024 + 20 ≤ w → 5 * 1024 + 20 ≤ h →
      (compute_chip_grid w h 1024 6 5 10).length = 30) ∧
    (w < 6 * 1024 + 20 ∨ h < 5 * 1024 + 20 →
      compute_chip_grid w h 1024 6 5 10 = []) := by
  constructor
  · intro hw hh
    rw [compute_chip_grid_length (by omega) (by omega)]
  · intro hlt
    unfold compute_chip_grid
    rw [if_pos (by omega)]

/-- Witness for C2 at the boundary: exactly 30 tiles at the minimal
fitting size, empty one pixel below. -/
theorem plan_grid_feasibility_boundary_witness :
    (compute_chip_grid 6164 5140 1024 6 5 10).length = 30 ∧
    compute_chip_grid 6163 5140 1024 6 5 10 = [] :=
  ⟨(plan_grid_feasibility_boundary 6164 5140).1 (by norm_num) (by norm_num),
   (plan_grid_feasibility_boundary 6163 5140).2 (Or.inl (by norm_num))⟩

/-- Two `s × s` pixel rectangles with the given upper-left corners share
no pixel: no point `(x, y)` lies inside both. -/
def rectDisjoint (s : Nat) (p q : Nat × Nat) : Prop :=
  ∀ x y : Nat,
    ¬ ((p.1 ≤ x ∧ x < p.1 + s ∧ p.2 ≤ y ∧ y < p.2 + s) ∧
       (q.1 ≤ x ∧ x < q.1 + s ∧ q.2 ≤ y ∧ y < q.2 + s))

/-- Separation along one axis gives disjointness: if one rectangle ends
before the other starts on the x- or y-axis, the rectangles are
disjoint. -/
theorem rectDisjoint_of_axis_sep {s : Nat} {p q : Nat × Nat}
    (h : p.1 + s ≤ q.1 ∨ q.1 + s ≤ p.1 ∨ p.2 + s ≤ q.2 ∨ q.2 + s ≤ p.2) :
    rectDisjoint s p q := by
  intro x y hxy
  omega

/-- Corners on distinct columns (or rows) of the grid are separated by
at least `chip_size` along that axis. -/
theorem grid_corner_sep {s sp a b m : Nat} (hab : a < b) :
    m + a * (s + sp) + s ≤ m + b * (s + sp) := by
  have h1 : (a + 1) * (s + sp) ≤ b * (s + sp) :=
    Nat.mul_le_mul_right _ (by omega)
  have h2 : (a + 1) * (s + sp) = a * (s + sp) + (s + sp) := by ring
  omega

/-- C3: for every configuration whose grid fits the image, the
`tile_size × tile_size` rectangles at the corners returned by
`compute_chip_grid` are pairwise disjoint. -/
theorem compute_chip_grid_pairwise_disjoint
    (w h s gx gy m : Nat) (hs : 0 < s)
    (hw : gx * s + 2 * m ≤ w) (hh : gy * s + 2 * m ≤ h)
    (p q : Nat × Nat)
    (hp : p ∈ compute_chip_grid w h s gx gy m)
    (hq : q ∈ compute_chip_grid w h s gx gy m)
    (hne : p ≠ q) : rectDisjoint s p q := by
  obtain ⟨rp, cp, hrp, hcp, hpe, _, _⟩ := compute_chip_grid_mem_struct hp
  obtain ⟨rq, cq, hrq, hcq, hqe, _, _⟩ := compute_chip_grid_mem_struct hq
  have hne2 : cp ≠ cq ∨ rp ≠ rq := by
    by_contra hcon
    push_neg at hcon
    exact hne (by rw [hpe, hqe, hcon.1, hcon.2])
  apply rectDisjoint_of_axis_sep
  rcases hne2 with hc | hr
  · rcases Nat.lt_or_ge cp cq with hlt | hge
    · left
      rw [hpe, hqe]
      exact grid_corner_sep hlt
    · right; left
      rw [hpe, hqe]
      exact grid_corner_sep (by omega)
  · rcases Nat.lt_or_ge rp rq with hlt | hge
    · right; right; left
      rw [hpe, hqe]
      exact grid_corner_sep hlt
    · right; right; right
      rw [hpe, hqe]
      exact grid_corner_sep (by omega)

/-- Witness for C3: two concrete tiles of the 10000×8000 scenario are
disjoint. -/
theorem compute_chip_grid_pairwise_disjoint_witness :
    rectDisjoint 1024 (10, 10) (1801, 10) :=
  compute_chip_grid_pairwise_disjoint 10000 8000 1024 6 5 10
    (by norm_num) (by norm_num) (by norm_num) (10, 10) (1801, 10)
    (by decide) (by decide) (by decide)

/-- C6: every corner returned by `compute_chip_grid` respects the
margin: `ulx ≥ margin`, `uly ≥ margin`, `ulx + tile_size ≤ width -
margin` and `uly + tile_size ≤ height - margin` (equivalently, adding
`margin` stays within the image). -/
theorem compute_chip_grid_margin_respect
    (w h s gx gy m : Nat) (p : Nat × Nat)
    (hp : p ∈ compute_chip_grid w h s gx gy m) :
    m ≤ p.1 ∧ m ≤ p.2 ∧ p.1 + s ≤ w - m ∧ p.2 + s ≤ h - m ∧
      p.1 + s + m ≤ w ∧ p.2 + s + m ≤ h := by
  obtain ⟨rp, cp, _, _, hpe, hbx, hby⟩ := compute_chip_grid_mem_struct hp
  have hfit : ¬ (w < gx * s + 2 * m ∨ h < gy * s + 2 * m) := by
    intro hcon
    rw [compute_chip_grid] at hp
    rw [if_pos hcon] at hp
    simp at hp
  constructor
  · rw [hpe]; exact Nat.le_add_right _ _
  constructor
  · rw [hpe]; exact Nat.le_add_right _ _
  exact ⟨hbx, hby, by omega, by omega⟩

/-- Witness for C6 at a concrete produced tile. -/
theorem compute_chip_grid_margin_respect_witness :
    10 ≤ (1801 : Nat) ∧ 10 ≤ (10 : Nat) ∧ 1801 + 1024 ≤ 10000 - 10 ∧
      10 + 1024 ≤ 8000 - 10 ∧ 1801 + 1024 + 10 ≤ 10000 ∧
      10 + 1024 + 10 ≤ 8000 :=
  compute_chip_grid_margin_respect 10000 8000 1024 6 5 10 (1801, 10)
    (by decide)

/-- C7: the concrete scenario 10000×8000 with `tile_size=1024,
grid_x=6, grid_y=5, margin=10`: 30 rectangles, first corner `(10,10)`,
horizontal spacing `(9980-6144)/5 = 767`, second corner in row 0 at
`ulx = 10+1024+767 = 1801`. -/
theorem compute_chip_grid_concrete_scenario :
    (compute_chip_grid 10000 8000 1024 6 5 10).length = 30 ∧
    (compute_chip_grid 10000 8000 1024 6 5 10)[0]? = some (10, 10) ∧
    (compute_chip_grid 10000 8000 1024 6 5 10)[1]? = some (1801, 10) ∧
    gridSpacing (10000 - 2 * 10) 6 1024 = 767 ∧
    10 + 1024 + 767 = 1801 := by
  refine ⟨?_, ?_, ?_, ?_, ?_⟩ <;> decide

/-- Chip coordinates in image space, from the `ChipCoords` dataclass in
`chip_extractor.py`. -/
structure ChipCoords where
  ul_x : Nat
  ul_y : Nat
  width : Nat
  height : Nat
deriving DecidableEq, Repr

/-- Lower-right X coordinate (`ChipCoords.lr_x`). -/
def ChipCoords.lr_x (c : ChipCoords) : Nat := c.ul_x + c.width

/-- Lower-right Y coordinate (`ChipCoords.lr_y`). -/
def ChipCoords.lr_y (c : ChipCoords) : Nat := c.ul_y + c.height

/-- Validity check from `ChipCoords.is_valid` in `chip_extractor.py`
(lines 38-54): `ul_x > 0 and ul_y > 0 and lr_x < image_width and
lr_y < image_height`. -/
def ChipCoords.is_valid (c : ChipCoords) (image_width image_height : Nat) :
    Bool :=
  decide (0 < c.ul_x) && decide (0 < c.ul_y) &&
    decide (c.lr_x < image_width) && decide (c.lr_y < image_height)

/-- Failure modes of `generate_random_chip_coords`: `valueError` is the
`ValueError` raised by the size validation (the spec's
`InvalidConfiguration` condition), `assertionError` is the
`AssertionError` raised by the final `assert coords.is_valid(...)`. -/
inductive ChipGenError where
  | valueError : ChipGenError
  | assertionError : ChipGenError
deriving DecidableEq, Repr

/-- Shallow embedding of `generate_random_chip_coords` from
`chip_extractor.py` (lines 75-125).  The two random draws
`random.randint(margin, max_ul_x)` and `random.randint(margin,
max_ul_y)` are modelled by the explicit parameters `ul_x` and `ul_y`;
theorems about the non-raising path carry the `randint` range
`margin ≤ ul ≤ max_ul` as a hypothesis. -/
def generate_random_chip_coords
    (image_width image_height chip_width chip_height margin ul_x ul_y : Nat) :
    Except ChipGenError ChipCoords :=
  if image_width - 2 * margin ≤ chip_width then
    .error .valueError
  else if image_height - 2 * margin ≤ chip_height then
    .error .valueError
  else
    if (⟨ul_x, ul_y, chip_width, chip_height⟩ : ChipCoords).is_valid
        image_width image_height then
      .ok ⟨ul_x, ul_y, chip_width, chip_height⟩
    else
      .error .assertionError

/-- C8 counterexample: with `margin = 0`, image 2000×2000, chip
1024×1024 and the legitimate draw `(0, 0)` (the `randint` range is
`[0, 976]`), the size check passes on both axes, yet the function does
not return coordinates: the internal assertion fails.  So "for all
other inputs it returns coordinates without raising" is false as
stated. -/
theorem generate_random_chip_coords_margin0_cex :
    ¬ (2000 - 2 * 0 ≤ 1024) ∧ (0 ≤ 2000 - 1024 - 0) ∧
      generate_random_chip_coords 2000 2000 1024 1024 0 0 0 =
        .error .assertionError :=
  ⟨by norm_num, by norm_num, by rfl⟩

/-- C8 (amended): the function fails with the `ValueError`
(`InvalidConfiguration`) condition exactly when
`chip_size ≥ dimension - 2*margin` on either axis — for every draw; and
for all other inputs with `margin ≥ 1` and draws inside the `randint`
range it returns coordinates without raising. -/
theorem generate_random_chip_coords_error_iff
    (iw ih cw ch m rx ry : Nat) :
    (generate_random_chip_coords iw ih cw ch m rx ry =
        .error .valueError ↔ (iw - 2 * m ≤ cw ∨ ih - 2 * m ≤ ch)) ∧
    (¬ (iw - 2 * m ≤ cw ∨ ih - 2 * m ≤ ch) → 1 ≤ m →
      m ≤ rx → rx ≤ iw - cw - m → m ≤ ry → ry ≤ ih - ch - m →
      generate_random_chip_coords iw ih cw ch m rx ry =
        .ok ⟨rx, ry, cw, ch⟩) := by
  constructor
  · unfold generate_random_chip_coords
    split
    · rename_i h1
      simp [h1]
    · rename_i h1
      split
      · rename_i h2
        simp [h2]
      · rename_i h2
        split <;> simp [h1, h2]
  · intro hc hm hrx1 hrx2 hry1 hry2
    unfold generate_random_chip_coords
    rw [if_neg (by omega), if_neg (by omega), if_pos]
    unfold ChipCoords.is_valid ChipCoords.lr_x ChipCoords.lr_y
    simp only [Bool.and_eq_true, decide_eq_true_eq]
    omega

/-- Witness for C8 (amended), both conjuncts at concrete inputs: a
1000-wide image cannot hold a 1024 chip (ValueError), and a 3000×3000
image with margin 1 and draw (5, 7) returns those coordinates. -/
theorem generate_random_chip_coords_error_iff_witness :
    generate_random_chip_coords 1000 1000 1024 1024 1 5 5 =
        .error .valueError ∧
    generate_random_chip_coords 3000 3000 1024 1024 1 5 7 =
        .ok ⟨5, 7, 1024, 1024⟩ :=
  ⟨(generate_random_chip_coords_error_iff 1000 1000 1024 1024 1 5 5).1.mpr
      (by norm_num),
   (generate_random_chip_coords_error_iff 3000 3000 1024 1024 1 5 7).2
      (by norm_num) (by norm_num) (by norm_num) (by norm_num) (by norm_num)
      (by norm_num)⟩

/-- C10: with `margin ≥ 1` and dimensions passing the size checks, the
internal validity assertion never fails and the returned coordinates
are the draws, which satisfy `margin ≤ ul_x ≤ image_width - chip_width
- margin` and `margin ≤ ul_y ≤ image_height - chip_height - margin`;
with `margin = 0` the assertion can fail because `is_valid` requires
`ul_x > 0` and `ul_y > 0` strictly. -/
theorem generate_random_chip_coords_assertion_safety :
    (∀ iw ih cw ch m rx ry : Nat, 1 ≤ m →
      cw < iw - 2 * m → ch < ih - 2 * m →
      m ≤ rx → rx ≤ iw - cw - m → m ≤ ry → ry ≤ ih - ch - m →
      generate_random_chip_coords iw ih cw ch m rx ry =
          .ok ⟨rx, ry, cw, ch⟩ ∧
        (⟨rx, ry, cw, ch⟩ : ChipCoords).is_valid iw ih = true) ∧
    (1024 < 2000 - 2 * 0 ∧
      generate_random_chip_coords 2000 2000 1024 1024 0 0 0 =
        .error .assertionError) := by
  constructor
  · intro iw ih cw ch m rx ry hm hw hh hrx1 hrx2 hry1 hry2
    have hok := (generate_random_chip_coords_error_iff iw ih cw ch m rx ry).2
      (by omega) hm hrx1 hrx2 hry1 hry2
    refine ⟨hok, ?_⟩
    unfold ChipCoords.is_valid ChipCoords.lr_x ChipCoords.lr_y
    simp only [Bool.and_eq_true, decide_eq_true_eq]
    omega
  · exact ⟨by norm_num, generate_random_chip_coords_margin0_cex.2.2⟩

/-- Witness for C10 at a concrete input. -/
theorem generate_random_chip_coords_assertion_safety_witness :
    generate_random_chip_coords 3000 2500 1024 1024 1 10 20 =
        .ok ⟨10, 20, 1024, 1024⟩ ∧
      (⟨10, 20, 1024, 1024⟩ : ChipCoords).is_valid 3000 2500 = true :=
  generate_random_chip_coords_assertion_safety.1 3000 2500 1024 1024 1 10 20
    (by norm_num) (by norm_num) (by norm_num) (by norm_num) (by norm_num)
    (by norm_num) (by norm_num)

/-- Manifest row, from the CSV schema handled by
`merge_chip_manifest.py`: `chip_path, source_image, ulx, uly, width,
height`.  The numeric columns are the integers obtained by `int(...)`
conversion. -/
structure ManifestRow where
  chip_path : String
  source_image : String
  ulx : Int
  uly : Int
  width : Int
  height : Int
deriving DecidableEq, Repr

/-- Sort key of a row, from line 49 of `merge_chip_manifest.py`:
`(r['source_image'], int(r['ulx']), int(r['uly']))`, compared as Python
compares tuples — lexicographically, strings by code points (the
`List Char` order on `String.data`). -/
def rowKey (r : ManifestRow) : Lex (List Char × Lex (Int × Int)) :=
  toLex (r.source_image.data, toLex (r.ulx, r.uly))

/-- Row order used by the sort: key of `a` ≤ key of `b`. -/
def rowLe (a b : ManifestRow) : Prop := rowKey a ≤ rowKey b

/-- Strict version of `rowLe`. -/
def rowLt (a b : ManifestRow) : Prop := rowKey a < rowKey b

instance : DecidableRel rowLe := fun a b =>
  inferInstanceAs (Decidable (rowKey a ≤ rowKey b))

instance : DecidableRel rowLt := fun a b =>
  inferInstanceAs (Decidable (rowKey a < rowKey b))

instance : IsTotal ManifestRow rowLe := ⟨fun a b => le_total (rowKey a) (rowKey b)⟩

instance : IsTrans ManifestRow rowLe := ⟨fun _ _ _ => le_trans⟩

instance : IsAntisymm ManifestRow rowLt :=
  ⟨fun _ _ h1 h2 => absurd h2 (lt_asymm h1)⟩

/-- Sanity characterization: `rowLe` is exactly the Python tuple
comparison `(source_image, ulx, uly) <= (source_image', ulx', uly')`. -/
theorem rowLe_iff (a b : ManifestRow) :
    rowLe a b ↔
      a.source_image.data < b.source_image.data ∨
        (a.source_image.data = b.source_image.data ∧
          (a.ulx < b.ulx ∨ (a.ulx = b.ulx ∧ a.uly ≤ b.uly))) := by
  unfold rowLe rowKey
  rw [Prod.Lex.le_iff]
  constructor
  · rintro (h | ⟨he, h2⟩)
    · exact Or.inl h
    · rw [Prod.Lex.le_iff] at h2
      exact Or.inr ⟨he, h2⟩
  · rintro (h | ⟨he, h2⟩)
    · exact Or.inl h
    · exact Or.inr ⟨he, (Prod.Lex.le_iff _ _).mpr h2⟩

/-- Shallow embedding of `merge_manifests` from
`merge_chip_manifest.py` (lines 37-57): concatenate the rows of all
input files in the given order (`all_rows.extend`), then sort them
ascending by `(source_image, int(ulx), int(uly))` with Python's
`list.sort`, which is a stable sort — modelled by the (stable)
insertion sort.  The returned row list fully determines the CSV bytes
written (fixed header and field order). -/
def merge_manifests (ms : List (List ManifestRow)) : List ManifestRow :=
  List.insertionSort rowLe ms.flatten

/-- C9: the merge never removes or deduplicates rows: its output is a
permutation (equal multiset) of the concatenation of all input rows,
and its length is the sum of the input lengths. -/
theorem merge_manifests_keeps_all_rows (ms : List (List ManifestRow)) :
    (merge_manifests ms).Perm ms.flatten ∧
      (merge_manifests ms).length = (ms.map List.length).sum := by
  refine ⟨List.perm_insertionSort rowLe ms.flatten, ?_⟩
  unfold merge_manifests
  rw [(List.perm_insertionSort rowLe ms.flatten).length_eq,
    List.length_flatten]

/-- Witness for C9 at a concrete input: two one-row files, two rows
out. -/
theorem merge_manifests_keeps_all_rows_witness :
    (merge_manifests
        [[⟨"aa/aa-qq-x.png", "x", 10, 10, 1024, 1024⟩],
         [⟨"aa/aa-zz-y.png", "y", 20, 30, 1024, 1024⟩]]).Perm
      [⟨"aa/aa-qq-x.png", "x", 10, 10, 1024, 1024⟩,
       ⟨"aa/aa-zz-y.png", "y", 20, 30, 1024, 1024⟩] ∧
    (merge_manifests
        [[⟨"aa/aa-qq-x.png", "x", 10, 10, 1024, 1024⟩],
         [⟨"aa/aa-zz-y.png", "y", 20, 30, 1024, 1024⟩]]).length =
      ([[(⟨"aa/aa-qq-x.png", "x", 10, 10, 1024, 1024⟩ : ManifestRow)],
        [⟨"aa/aa-zz-y.png", "y", 20, 30, 1024, 1024⟩]].map
          List.length).sum :=
  merge_manifests_keeps_all_rows
    [[⟨"aa/aa-qq-x.png", "x", 10, 10, 1024, 1024⟩],
     [⟨"aa/aa-zz-y.png", "y", 20, 30, 1024, 1024⟩]]

/-- C1 counterexample: two partial manifests that both contain a row
for `(source_image="x", ulx=10, uly=10)`.  The merge does not raise
anything — `merge_manifests` is a total function with no error value —
and emits a manifest that contains both colliding rows. -/
theorem merge_manifests_conflict_cex :
    ((⟨"aa/aa-qq-x.png", "x", 10, 10, 1024, 1024⟩ : ManifestRow).source_image =
        (⟨"bb/bb-zz-x.png", "x", 10, 10, 1024, 1024⟩ : ManifestRow).source_image ∧
      (⟨"aa/aa-qq-x.png", "x", 10, 10, 1024, 1024⟩ : ManifestRow).ulx =
        (⟨"bb/bb-zz-x.png", "x", 10, 10, 1024, 1024⟩ : ManifestRow).ulx ∧
      (⟨"aa/aa-qq-x.png", "x", 10, 10, 1024, 1024⟩ : ManifestRow).uly =
        (⟨"bb/bb-zz-x.png", "x", 10, 10, 1024, 1024⟩ : ManifestRow).uly) ∧
    (⟨"aa/aa-qq-x.png", "x", 10, 10, 1024, 1024⟩ : ManifestRow) ≠
      ⟨"bb/bb-zz-x.png", "x", 10, 10, 1024, 1024⟩ ∧
    merge_manifests
        [[⟨"aa/aa-qq-x.png", "x", 10, 10, 1024, 1024⟩],
         [⟨"bb/bb-zz-x.png", "x", 10, 10, 1024, 1024⟩]] =
      [⟨"aa/aa-qq-x.png", "x", 10, 10, 1024, 1024⟩,
       ⟨"bb/bb-zz-x.png", "x", 10, 10, 1024, 1024⟩] := by
  decide

/-- C1 (amended): for every pair of partial manifests that both contain
a row with the same `(source_image, ulx, uly)` key, the merge raises no
error and emits a merged manifest whose rows are exactly the
concatenation of the two inputs — in particular both conflicting rows
survive.  (`ManifestConflict` does not exist in the code.) -/
theorem merge_manifests_no_conflict_detection
    (p1 p2 : List ManifestRow) (r1 r2 : ManifestRow)
    (h1 : r1 ∈ p1) (h2 : r2 ∈ p2) (hk : rowKey r1 = rowKey r2) :
    (merge_manifests [p1, p2]).Perm (p1 ++ p2) ∧
      r1 ∈ merge_manifests [p1, p2] ∧ r2 ∈ merge_manifests [p1, p2] := by
  have hperm : (merge_manifests [p1, p2]).Perm (p1 ++ p2) := by
    unfold merge_manifests
    have h := List.perm_insertionSort rowLe ([p1, p2].flatten)
    simpa using h
  exact ⟨hperm, hperm.mem_iff.mpr (List.mem_append.mpr (Or.inl h1)),
    hperm.mem_iff.mpr (List.mem_append.mpr (Or.inr h2))⟩

/-- Witness for C1 (amended) at concrete conflicting inputs. -/
theorem merge_manifests_no_conflict_detection_witness :
    (merge_manifests
        [[⟨"aa/aa-qq-x.png", "x", 10, 10, 1024, 1024⟩],
         [⟨"bb/bb-zz-x.png", "x", 10, 10, 1024, 1024⟩]]).Perm
      ([⟨"aa/aa-qq-x.png", "x", 10, 10, 1024, 1024⟩] ++
       [⟨"bb/bb-zz-x.png", "x", 10, 10, 1024, 1024⟩]) ∧
    (⟨"aa/aa-qq-x.png", "x", 10, 10, 1024, 1024⟩ : ManifestRow) ∈
      merge_manifests
        [[⟨"aa/aa-qq-x.png", "x", 10, 10, 1024, 1024⟩],
         [⟨"bb/bb-zz-x.png", "x", 10, 10, 1024, 1024⟩]] ∧
    (⟨"bb/bb-zz-x.png", "x", 10, 10, 1024, 1024⟩ : ManifestRow) ∈
      merge_manifests
        [[⟨"aa/aa-qq-x.png", "x", 10, 10, 1024, 1024⟩],
         [⟨"bb/bb-zz-x.png", "x", 10, 10, 1024, 1024⟩]] :=
  merge_manifests_no_conflict_detection
    [⟨"aa/aa-qq-x.png", "x", 10, 10, 1024, 1024⟩]
    [⟨"bb/bb-zz-x.png", "x", 10, 10, 1024, 1024⟩]
    ⟨"aa/aa-qq-x.png", "x", 10, 10, 1024, 1024⟩
    ⟨"bb/bb-zz-x.png", "x", 10, 10, 1024, 1024⟩
    (by decide) (by decide) (by decide)

/-- C4 counterexample: two partial manifests whose rows share the same
`(source_image, ulx, uly)` key but differ in `chip_path`.  Supplying
them in the two possible orders yields different merged outputs (the
stable sort keeps equal-key rows in input order), so the merge is not
permutation-invariant as claimed for every sequence of partials. -/
theorem merge_manifests_perm_invariance_cex :
    ([[⟨"aa/aa-qq-x.png", "x", 10, 10, 1024, 1024⟩],
      [⟨"bb/bb-zz-x.png", "x", 10, 10, 1024, 1024⟩]] :
        List (List ManifestRow)).Perm
      [[⟨"bb/bb-zz-x.png", "x", 10, 10, 1024, 1024⟩],
       [⟨"aa/aa-qq-x.png", "x", 10, 10, 1024, 1024⟩]] ∧
    merge_manifests
        [[⟨"aa/aa-qq-x.png", "x", 10, 10, 1024, 1024⟩],
         [⟨"bb/bb-zz-x.png", "x", 10, 10, 1024, 1024⟩]] ≠
      merge_manifests
        [[⟨"bb/bb-zz-x.png", "x", 10, 10, 1024, 1024⟩],
         [⟨"aa/aa-qq-x.png", "x", 10, 10, 1024, 1024⟩]] := by
  decide

/-- C4 (amended): the merged rows are always sorted ascending by
`(source_image, ulx, uly)`; merging the same inputs twice yields
identical output; and the output is invariant under permuting the
partial manifests provided no two rows of the combined input share the
same sort key (conflict-free inputs) — with equal keys the stable sort
keeps input order, which is what the counterexample exploits. -/
theorem merge_manifests_sorted_and_reproducible :
    (∀ ms : List (List ManifestRow),
      List.Pairwise rowLe (merge_manifests ms)) ∧
    (∀ ms : List (List ManifestRow),
      merge_manifests ms = merge_manifests ms) ∧
    (∀ ps qs : List (List ManifestRow),
      List.Pairwise (fun a b => rowKey a ≠ rowKey b) ps.flatten →
      ps.Perm qs → merge_manifests ps = merge_manifests qs) := by
  refine ⟨fun ms => List.sorted_insertionSort rowLe _, fun ms => rfl, ?_⟩
  intro ps qs hnd hperm
  have hsym : ∀ {x y : ManifestRow},
      rowKey x ≠ rowKey y → rowKey y ≠ rowKey x := fun h => Ne.symm h
  have h1 : (merge_manifests ps).Perm (merge_manifests qs) :=
    ((List.perm_insertionSort rowLe ps.flatten).trans hperm.flatten).trans
      (List.perm_insertionSort rowLe qs.flatten).symm
  have hnd1 : List.Pairwise (fun a b => rowKey a ≠ rowKey b)
      (merge_manifests ps) :=
    ((List.perm_insertionSort rowLe ps.flatten).pairwise_iff hsym).mpr hnd
  have hnd2 : List.Pairwise (fun a b => rowKey a ≠ rowKey b)
      (merge_manifests qs) :=
    ((List.perm_insertionSort rowLe qs.flatten).pairwise_iff hsym).mpr
      ((hperm.flatten.pairwise_iff hsym).mp hnd)
  have hlt1 : List.Sorted rowLt (merge_manifests ps) :=
    ((List.sorted_insertionSort rowLe ps.flatten).and hnd1).imp
      (fun h => lt_of_le_of_ne h.1 h.2)
  have hlt2 : List.Sorted rowLt (merge_manifests qs) :=
    ((List.sorted_insertionSort rowLe qs.flatten).and hnd2).imp
      (fun h => lt_of_le_of_ne h.1 h.2)
  exact List.eq_of_perm_of_sorted h1 hlt1 hlt2

/-- Witness for C4 (amended): two conflict-free one-row files merge to
the same output in either order. -/
theorem merge_manifests_sorted_and_reproducible_witness :
    merge_manifests
        [[⟨"aa/aa-qq-x.png", "x", 10, 10, 1024, 1024⟩],
         [⟨"aa/aa-zz-y.png", "y", 20, 30, 1024, 1024⟩]] =
      merge_manifests
        [[⟨"aa/aa-zz-y.png", "y", 20, 30, 1024, 1024⟩],
         [⟨"aa/aa-qq-x.png", "x", 10, 10, 1024, 1024⟩]] :=
  merge_manifests_sorted_and_reproducible.2.2
    [[⟨"aa/aa-qq-x.png", "x", 10, 10, 1024, 1024⟩],
     [⟨"aa/aa-zz-y.png", "y", 20, 30, 1024, 1024⟩]]
    [[⟨"aa/aa-zz-y.png", "y", 20, 30, 1024, 1024⟩],
     [⟨"aa/aa-qq-x.png", "x", 10, 10, 1024, 1024⟩]]
    (by decide) (by decide)

/-- UTF-8 encoding of one character (the standard 1-4 byte scheme used
by Python's `str.encode()`). -/
def utf8Bytes (c : Char) : List Nat :=
  let n := c.toNat
  if n < 128 then [n]
  else if n < 2048 then
    [192 + n / 64, 128 + n % 64]
  else if n < 65536 then
    [224 + n / 4096, 128 + (n / 64) % 64, 128 + n % 64]
  else
    [240 + n / 262144, 128 + (n / 4096) % 64, 128 + (n / 64) % 64, 128 + n % 64]

/-- UTF-8 bytes of a string (`value.encode()`). -/
def strUtf8 (s : String) : List Nat := (s.data.map utf8Bytes).flatten

/-- Truncation to 32 bits. -/
def w32 (x : Nat) : Nat := x % 4294967296

/-- 32-bit left rotation (input below `2^32`). -/
def rotl32 (x c : Nat) : Nat := w32 ((x <<< c) ||| (x >>> (32 - c)))

/-- 32-bit bitwise complement (input below `2^32`). -/
def not32 (x : Nat) : Nat := 4294967295 - x

/-- MD5 round constants (RFC 1321): `floor(abs(sin(i+1)) * 2^32)`. -/
def md5K : List Nat :=
  [0xd76aa478, 0xe8c7b756, 0x242070db, 0xc1bdceee,
   0xf57c0faf, 0x4787c62a, 0xa8304613, 0xfd469501,
   0x698098d8, 0x8b44f7af, 0xffff5bb1, 0x895cd7be,
   0x6b901122, 0xfd987193, 0xa679438e, 0x49b40821,
   0xf61e2562, 0xc040b340, 0x265e5a51, 0xe9b6c7aa,
   0xd62f105d, 0x02441453, 0xd8a1e681, 0xe7d3fbc8,
   0x21e1cde6, 0xc33707d6, 0xf4d50d87, 0x455a14ed,
   0xa9e3e905, 0xfcefa3f8, 0x676f02d9, 0x8d2a4c8a,
   0xfffa3942, 0x8771f681, 0x6d9d6122, 0xfde5380c,
   0xa4beea44, 0x4bdecfa9, 0xf6bb4b60, 0xbebfbc70,
   0x289b7ec6, 0xeaa127fa, 0xd4ef3085, 0x04881d05,
   0xd9d4d039, 0xe6db99e5, 0x1fa27cf8, 0xc4ac5665,
   0xf4292244, 0x432aff97, 0xab9423a7, 0xfc93a039,
   0x655b59c3, 0x8f0ccc92, 0xffeff47d, 0x85845dd1,
   0x6fa87e4f, 0xfe2ce6e0, 0xa3014314, 0x4e0811a1,
   0xf7537e82, 0xbd3af235, 0x2ad7d2bb, 0xeb86d391]

/-- MD5 per-round shift amounts (RFC 1321). -/
def md5S : List Nat :=
  [7, 12, 17, 22, 7, 12, 17, 22, 7, 12, 17, 22, 7, 12, 17, 22,
   5, 9, 14, 20, 5, 9, 14, 20, 5, 9, 14, 20, 5, 9, 14, 20,
   4, 11, 16, 23, 4, 11, 16, 23, 4, 11, 16, 23, 4, 11, 16, 23,
   6, 10, 15, 21, 6, 10, 15, 21, 6, 10, 15, 21, 6, 10, 15, 21]

/-- MD5 nonlinear mixing function for round `i`. -/
def md5F (i b c d : Nat) : Nat :=
  if i < 16 then (b &&& c) ||| (not32 b &&& d)
  else if i < 32 then (d &&& b) ||| (not32 d &&& c)
  else if i < 48 then b ^^^ c ^^^ d
  else c ^^^ (b ||| not32 d)

/-- MD5 message-word index for round `i`. -/
def md5G (i : Nat) : Nat :=
  if i < 16 then i
  else if i < 32 then (5 * i + 1) % 16
  else if i < 48 then (3 * i + 5) % 16
  else (7 * i) % 16

/-- MD5 padding: append `0x80`, zeros to 56 mod 64 bytes, then the
original bit length as 8 little-endian bytes. -/
def md5Pad (msg : List Nat) : List Nat :=
  let len := msg.length
  let k := (120 - ((len + 1) % 64)) % 64
  msg ++ 128 :: List.replicate k 0 ++
    (List.range 8).map (fun i => ((8 * len) >>> (8 * i)) % 256)

/-- Little-endian 32-bit word `j` of a 64-byte chunk. -/
def md5Word (c : List Nat) (j : Nat) : Nat :=
  c.getD (4 * j) 0 + 256 * c.getD (4 * j + 1) 0 +
    65536 * c.getD (4 * j + 2) 0 + 16777216 * c.getD (4 * j + 3) 0

/-- One MD5 round on the running state `(a, b, c, d)`. -/
def md5Step (c : List Nat) (st : Nat × Nat × Nat × Nat) (i : Nat) :
    Nat × Nat × Nat × Nat :=
  match st with
  | (a, b, cc, d) =>
    let f := w32 (md5F i b cc d + a + md5K.getD i 0 + md5Word c (md5G i))
    (d, w32 (b + rotl32 f (md5S.getD i 0)), b, cc)

/-- Process one 64-byte chunk: 64 rounds, then add into the state. -/
def md5Chunk (st : Nat × Nat × Nat × Nat) (c : List Nat) :
    Nat × Nat × Nat × Nat :=
  match st, (List.range 64).foldl (md5Step c) st with
  | (a0, b0, c0, d0), (a, b, cc, d) =>
    (w32 (a0 + a), w32 (b0 + b), w32 (c0 + cc), w32 (d0 + d))

/-- MD5 state after hashing an entire byte message. -/
def md5State (msg : List Nat) : Nat × Nat × Nat × Nat :=
  let padded := md5Pad msg
  ((List.range (padded.length / 64)).map
    (fun i => (padded.drop (64 * i)).take 64)).foldl md5Chunk
    (0x67452301, 0xefcdab89, 0x98badcfe, 0x10325476)

/-- Four little-endian bytes of a 32-bit word. -/
def le4 (x : Nat) : List Nat :=
  [x % 256, (x >>> 8) % 256, (x >>> 16) % 256, (x >>> 24) % 256]

/-- MD5 digest: the 16 output bytes. -/
def md5Digest (msg : List Nat) : List Nat :=
  match md5State msg with
  | (a, b, c, d) => le4 a ++ le4 b ++ le4 c ++ le4 d

/-- MD5 digest interpreted as a non-negative integer, exactly as
Python's `int(hashlib.md5(x).hexdigest(), 16)` does: the digest bytes
read big-endian. -/
def md5Nat (msg : List Nat) : Nat :=
  (md5Digest msg).foldl (fun acc byte => acc * 256 + byte) 0


set_option maxRecDepth 40000 in
/-- Sanity check of the MD5 embedding against the RFC 1321 test
vectors for the empty string and `"abc"`. -/
theorem md5Nat_rfc1321_vectors :
    md5Nat [] = 0xd41d8cd98f00b204e9800998ecf8427e ∧
    md5Nat (strUtf8 "abc") = 0x900150983cd24fb0d6963f7d28e17f72 := by
  constructor <;> decide

/-- Shallow embedding of `hash_to_bin` from
`generate_chip_manifest.py` (lines 46-49):
`int(hashlib.md5(value.encode()).hexdigest(), 16) % num_bins`. -/
def hash_to_bin (value : String) (num_bins : Nat) : Nat :=
  md5Nat (strUtf8 value) % num_bins

/-- ASCII lower-casing of one character, as Python's `str.lower()`
acts on the ASCII-only bin labels used here. -/
def charLower (c : Char) : Char :=
  if 65 ≤ c.toNat ∧ c.toNat ≤ 90 then Char.ofNat (c.toNat + 32) else c

/-- ASCII lower-casing of a string (`bin_label.lower()` for the
ASCII-only labels produced by `generate_bin_labels`). -/
def strLower (s : String) : String := String.mk (s.data.map charLower)

/-- Shallow embedding of `generate_bin_labels` from
`generate_chip_manifest.py` (lines 24-36): all 625 two-letter
combinations over `A`..`Y` (the `num_bins` parameter is unused by the
source beyond its default). -/
def generate_bin_labels : List String :=
  let letters := (List.range 25).map (fun i => String.mk [Char.ofNat (65 + i)])
  (letters.map (fun a => letters.map (fun b => a ++ b))).flatten

/-- One manifest entry produced by `process_single_image` in
`generate_chip_manifest.py`. -/
structure ChipEntry where
  chip_path : String
  source_image : String
  ulx : Nat
  uly : Nat
  width : Nat
  height : Nat
  bin : String
deriving DecidableEq, Repr

/-- Shallow embedding of the entry-generation loop of
`process_single_image` from `generate_chip_manifest.py` (lines
98-155): grid planning with `grid_x=6, grid_y=5` (margin default 10),
then for each `(idx, (ulx, uly))` of `enumerate(chip_coords)` the bin
is `bin_labels[hash_to_bin(f"{image_name}_{idx}", len(bin_labels))]`
lower-cased.  The per-entry `generate_random_token()` draws are
modelled by the explicit `tok` parameter; the raster-metadata read that
supplies `width` and `height` is external. -/
def process_single_image (image_name : String) (width height : Nat)
    (bin_labels : List String) (tok : Nat → String)
    (chip_size : Nat) : List ChipEntry :=
  (compute_chip_grid width height chip_size 6 5 10).enum.map
    (fun ic =>
      let bin_label := strLower (bin_labels.getD
        (hash_to_bin (image_name ++ "_" ++ Nat.repr ic.1)
          bin_labels.length) "")
      { chip_path := bin_label ++ "/" ++ bin_label ++ "-" ++ tok ic.1 ++
          "-" ++ image_name ++ ".png",
        source_image := image_name,
        ulx := ic.2.1, uly := ic.2.2,
        width := chip_size, height := chip_size,
        bin := bin_label })

/-- C5: the bin assigner is `bin_labels[h mod N]` with `h` the MD5
digest of the UTF-8 bytes of the key read as a non-negative integer;
the key of the `i`-th manifest entry of an image is
`"{source_image}_{i}"` with `i` the tile's position in the grid
planner's output order (the entry's coordinates are the `i`-th grid
coordinates); and the assignment is deterministic — two calls on the
same arguments give the same label. -/
theorem hash_to_bin_md5_spec :
    (∀ (key : String) (nb : Nat),
      hash_to_bin key nb = md5Nat (strUtf8 key) % nb ∧
        hash_to_bin key nb = hash_to_bin key nb) ∧
    (∀ (name : String) (w h : Nat) (labels : List String)
        (tok : Nat → String) (i : Nat) (e : ChipEntry)
        (hN : 0 < labels.length),
      (process_single_image name w h labels tok 1024)[i]? = some e →
        e.bin = strLower (labels.get
            ⟨md5Nat (strUtf8 (name ++ "_" ++ Nat.repr i)) % labels.length,
             Nat.mod_lt _ hN⟩) ∧
          (compute_chip_grid w h 1024 6 5 10)[i]? = some (e.ulx, e.uly)) := by
  refine ⟨fun key nb => ⟨rfl, rfl⟩, ?_⟩
  intro name w h labels tok i e hN hsome
  unfold process_single_image at hsome
  rw [List.getElem?_map, List.getElem?_enum] at hsome
  cases hg : (compute_chip_grid w h 1024 6 5 10)[i]? with
  | none => rw [hg] at hsome; simp at hsome
  | some c =>
    obtain ⟨c1, c2⟩ := c
    rw [hg] at hsome
    injection hsome with he
    subst he
    have hlt : md5Nat (strUtf8 (name ++ "_" ++ Nat.repr i)) %
        labels.length < labels.length := Nat.mod_lt _ hN
    constructor
    · show strLower (labels.getD
        (hash_to_bin (name ++ "_" ++ Nat.repr i) labels.length) "") = _
      unfold hash_to_bin
      rw [List.getD_eq_getElem labels "" hlt, List.get_eq_getElem]
    · rfl

set_option maxRecDepth 40000 in
/-- Witness for C5: image `"x"`, a 3-label table, tile index 0.  MD5 of
`"x_0"` mod 3 is 2, so the bin is `strLower "AC" = "ac"`, and tile 0 of
the 10000×8000 grid is `(10, 10)`. -/
theorem hash_to_bin_md5_spec_witness :
    (⟨"ac/ac-qq-x.png", "x", 10, 10, 1024, 1024, "ac"⟩ : ChipEntry).bin =
      strLower ((["AA", "AB", "AC"] : List String).get
        ⟨md5Nat (strUtf8 ("x" ++ "_" ++ Nat.repr 0)) % 3,
         Nat.mod_lt _ (by decide)⟩) ∧
    (compute_chip_grid 10000 8000 1024 6 5 10)[0]? =
      some ((⟨"ac/ac-qq-x.png", "x", 10, 10, 1024, 1024, "ac"⟩ :
        ChipEntry).ulx,
        (⟨"ac/ac-qq-x.png", "x", 10, 10, 1024, 1024, "ac"⟩ :
          ChipEntry).uly) :=
  hash_to_bin_md5_spec.2 "x" 10000 8000 ["AA", "AB", "AC"]
    (fun _ => "qq") 0 ⟨"ac/ac-qq-x.png", "x", 10, 10, 1024, 1024, "ac"⟩
    (by decide) (by decide)
